import Mathlib

/-!
Verification of the Proxmox provider's lifecycle reconciler.

The development shallowly embeds the provider's LXC lifecycle code
(`proxmox_api.py`, `proxmox_lxc.py`, `proxmox_vm_qemu.py`).  Remote calls are
modelled by an outcome oracle `env : Nat → Resp` that yields, for the n-th
request issued, either a successful response (carrying the optional `status`
field of its `data` payload, which only status reads inspect) or a raised
exception carrying its message string.  Every embedded operation threads the
request counter and also records a trace of events: the requests it issued and
the sleeps it performed, in order.
-/

set_option autoImplicit false

namespace Proxmox

/-- A value stored in a Python property dict: int, str, bool, or a str→str
dict (used for `disks`, `networks` and `features`). -/
inductive Val where
  | vint (n : Int)
  | vstr (s : String)
  | vbool (b : Bool)
  | vdict (d : List (String × String))
deriving DecidableEq, Repr

/-- A request issued to the remote API, abstracted to the endpoints the
provider uses. -/
inductive Req where
  | getStatus
  | postStop
  | postShutdown
  | postStart
  | postCreate
  | delete
  | putResize (disk : String) (size : String)
  | putConfig (body : List (String × Val))
deriving DecidableEq, Repr

/-- Outcome of one remote request: success (with the optional `status` field
of the response's `data`, meaningful for status reads only) or a raised
exception with message `msg` (the Python `str(e)`). -/
inductive Resp where
  | succ (status : Option String)
  | fail (msg : String)
deriving DecidableEq, Repr

/-- An observable event: a request issued, or a sleep of `secs` seconds. -/
inductive Ev where
  | call (r : Req)
  | sleep (secs : Nat)
deriving DecidableEq, Repr

/-- Result of running an embedded operation: its value, the next request
index, and the trace of events it produced. -/
structure Run (α : Type) where
  res : α
  next : Nat
  trace : List Ev
deriving Repr

/-- Whether the pattern `p` is a prefix of the text `t` (character lists). -/
def prefixL : List Char → List Char → Bool
  | [], _ => true
  | _ :: _, [] => false
  | a :: as, b :: bs => a == b && prefixL as bs

/-- Whether the text contains the pattern as a contiguous substring
(character lists); models Python's `pat in text`. -/
def containsL : List Char → List Char → Bool
  | [], p => p.isEmpty
  | c :: cs, p => prefixL p (c :: cs) || containsL cs p

/-- Python's `pat in s` on strings. -/
def strContains (s pat : String) : Bool := containsL s.data pat.data

/-- Python's `s.lower()`, character-wise (same mapping as `String.toLower`,
stated over the character list so that it evaluates in the kernel). -/
def py_lower (s : String) : String := ⟨s.data.map Char.toLower⟩

/-- Classification used by `_wait_for_lxc_unlock` (proxmox_api.py:362):
`"timeout" in str(e).lower() or "lock" in str(e).lower()`. -/
def lock_classified (m : String) : Bool :=
  strContains (py_lower m) "timeout" || strContains (py_lower m) "lock"

/-- Classification used by `delete_lxc`'s retry loop (proxmox_api.py:448-450):
the lowercased message contains "container is running", "timeout" or "lock". -/
def retry_classified (m : String) : Bool :=
  strContains (py_lower m) "container is running" || strContains (py_lower m) "timeout"
    || strContains (py_lower m) "lock"

/-- The status string a successful response reports:
`result.get("data", {}).get("status", "unknown")`; a failed read contributes
"unknown" where the caller defaults it. -/
def read_status (r : Resp) : String :=
  match r with
  | .succ st => st.getD "unknown"
  | .fail _ => "unknown"

/-- `ProxmoxAPI._wait_for_lxc_unlock` (proxmox_api.py:343-372): poll the
status endpoint up to `n` times; a successful read returns true at once; a
failure classified timeout/lock sleeps 1s and continues; any other failure
returns true at once; exhaustion returns false. -/
def wait_for_lxc_unlock (env : Nat → Resp) : Nat → Nat → Run Bool
  | t, 0 => ⟨false, t, []⟩
  | t, n + 1 =>
    match env t with
    | .succ _ => ⟨true, t + 1, [.call .getStatus]⟩
    | .fail m =>
      if lock_classified m then
        let r := wait_for_lxc_unlock env (t + 1) n
        ⟨r.res, r.next, .call .getStatus :: .sleep 1 :: r.trace⟩
      else ⟨true, t + 1, [.call .getStatus]⟩

/-- `ProxmoxAPI._wait_for_lxc_stop` (proxmox_api.py:374-400): poll the status
endpoint up to `n` times; return true as soon as the reported status is
"stopped"; otherwise (other status, or a read failure) sleep 1s and continue;
exhaustion returns false. -/
def wait_for_lxc_stop (env : Nat → Resp) : Nat → Nat → Run Bool
  | t, 0 => ⟨false, t, []⟩
  | t, n + 1 =>
    match env t with
    | .succ st =>
      if st.getD "unknown" = "stopped" then ⟨true, t + 1, [.call .getStatus]⟩
      else
        let r := wait_for_lxc_stop env (t + 1) n
        ⟨r.res, r.next, .call .getStatus :: .sleep 1 :: r.trace⟩
    | .fail _ =>
      let r := wait_for_lxc_stop env (t + 1) n
      ⟨r.res, r.next, .call .getStatus :: .sleep 1 :: r.trace⟩

/-- `ProxmoxAPI.get_lxc` (proxmox_api.py:240-248): one status read; on
failure swallow the exception and return an empty dict (modelled as `none`,
so the caller's `.get("status", "unknown")` yields "unknown"). -/
def get_lxc (env : Nat → Resp) (t : Nat) : Run (Option String) :=
  match env t with
  | .succ st => ⟨st, t + 1, [.call .getStatus]⟩
  | .fail _ => ⟨none, t + 1, [.call .getStatus]⟩

/-- Whether a response is a status read reporting "stopped". -/
def resp_stopped : Resp → Bool
  | .succ st => st.getD "unknown" == "stopped"
  | .fail _ => false

/-- Count of status-read requests in a trace. -/
def countGet (tr : List Ev) : Nat :=
  tr.countP (fun e => match e with | .call .getStatus => true | _ => false)

/-- Count of DELETE requests in a trace. -/
def countDel (tr : List Ev) : Nat :=
  tr.countP (fun e => match e with | .call .delete => true | _ => false)

/-- Count of resize requests in a trace. -/
def countResize (tr : List Ev) : Nat :=
  tr.countP (fun e => match e with | .call (.putResize _ _) => true | _ => false)

/-- Count of generic config-update requests in a trace. -/
def countConfig (tr : List Ev) : Nat :=
  tr.countP (fun e => match e with | .call (.putConfig _) => true | _ => false)

/-- Count of start requests in a trace. -/
def countStart (tr : List Ev) : Nat :=
  tr.countP (fun e => match e with | .call .postStart => true | _ => false)

lemma unlock_false_iff (env : Nat → Resp) :
    ∀ n t, (wait_for_lxc_unlock env t n).res = false ↔
      ∀ i < n, ∃ m, env (t + i) = .fail m ∧ lock_classified m = true := by
  intro n
  induction n with
  | zero => intro t; simp [wait_for_lxc_unlock]
  | succ n ih =>
    intro t
    cases h : env t with
    | succ st =>
      simp only [wait_for_lxc_unlock, h]
      constructor
      · intro hfalse; cases hfalse
      · intro hall
        rcases hall 0 (Nat.succ_pos n) with ⟨m, hm, _⟩
        rw [Nat.add_zero] at hm
        rw [h] at hm
        cases hm
    | fail m =>
      by_cases hc : lock_classified m
      · simp only [wait_for_lxc_unlock, h, hc, if_pos]
        rw [ih (t + 1)]
        constructor
        · intro hall i hi
          cases i with
          | zero => exact ⟨m, by simpa using h, hc⟩
          | succ j =>
            have hj : j < n := Nat.lt_of_succ_lt_succ hi
            rcases hall j hj with ⟨m', hm', hc'⟩
            refine ⟨m', ?_, hc'⟩
            have : t + 1 + j = t + (j + 1) := by omega
            rw [this] at hm'
            exact hm'
        · intro hall j hj
          rcases hall (j + 1) (Nat.succ_lt_succ hj) with ⟨m', hm', hc'⟩
          refine ⟨m', ?_, hc'⟩
          have : t + (j + 1) = t + 1 + j := by omega
          rw [this] at hm'
          exact hm'
      · simp only [wait_for_lxc_unlock, h, hc, if_neg, not_false_iff]
        constructor
        · intro hfalse; cases hfalse
        · intro hall
          rcases hall 0 (Nat.succ_pos n) with ⟨m', hm', hc'⟩
          rw [Nat.add_zero, h] at hm'
          cases hm'
          exact absurd hc' (by simpa using hc)

lemma stop_true_iff (env : Nat → Resp) :
    ∀ n t, (wait_for_lxc_stop env t n).res = true ↔
      ∃ i < n, resp_stopped (env (t + i)) = true := by
  intro n
  induction n with
  | zero => intro t; simp [wait_for_lxc_stop]
  | succ n ih =>
    intro t
    cases h : env t with
    | succ st =>
      by_cases hs : st.getD "unknown" = "stopped"
      · simp only [wait_for_lxc_stop, h, hs, if_pos]
        constructor
        · intro _
          exact ⟨0, Nat.succ_pos n, by simp [resp_stopped, h, hs]⟩
        · intro _; trivial
      · simp only [wait_for_lxc_stop, h, hs, if_neg, not_false_iff]
        rw [ih (t + 1)]
        constructor
        · intro ⟨i, hi, hstop⟩
          refine ⟨i + 1, Nat.succ_lt_succ hi, ?_⟩
          have : t + (i + 1) = t + 1 + i := by omega
          rw [this]
          exact hstop
        · intro ⟨i, hi, hstop⟩
          cases i with
          | zero =>
            rw [Nat.add_zero, h] at hstop
            simp only [resp_stopped, beq_iff_eq] at hstop
            exact absurd hstop hs
          | succ j =>
            refine ⟨j, Nat.lt_of_succ_lt_succ hi, ?_⟩
            have : t + 1 + j = t + (j + 1) := by omega
            rw [this]
            exact hstop
    | fail m =>
      simp only [wait_for_lxc_stop, h]
      rw [ih (t + 1)]
      constructor
      · intro ⟨i, hi, hstop⟩
        refine ⟨i + 1, Nat.succ_lt_succ hi, ?_⟩
        have : t + (i + 1) = t + 1 + i := by omega
        rw [this]
        exact hstop
      · intro ⟨i, hi, hstop⟩
        cases i with
        | zero =>
          rw [Nat.add_zero, h] at hstop
          simp [resp_stopped] at hstop
        | succ j =>
          refine ⟨j, Nat.lt_of_succ_lt_succ hi, ?_⟩
          have : t + 1 + j = t + (j + 1) := by omega
          rw [this]
          exact hstop

lemma stop_false_countGet (env : Nat → Resp) :
    ∀ n t, (wait_for_lxc_stop env t n).res = false →
      countGet (wait_for_lxc_stop env t n).trace = n := by
  intro n
  induction n with
  | zero => intro t _; simp [wait_for_lxc_stop, countGet]
  | succ n ih =>
    intro t hfalse
    cases h : env t with
    | succ st =>
      by_cases hs : st.getD "unknown" = "stopped"
      · rw [wait_for_lxc_stop, h] at hfalse
        simp [hs] at hfalse
      · rw [wait_for_lxc_stop, h] at hfalse ⊢
        simp only [hs, if_neg, not_false_iff] at hfalse ⊢
        simp only [countGet, List.countP_cons] at ih ⊢
        have := ih (t + 1) hfalse
        simp only [countGet] at this
        simp [this]
    | fail m =>
      rw [wait_for_lxc_stop, h] at hfalse ⊢
      have := ih (t + 1) hfalse
      simp only [countGet, List.countP_cons] at this ⊢
      simp [this]

lemma stop_first_hit (env : Nat → Resp) :
    ∀ i n t, i < n → resp_stopped (env (t + i)) = true →
      (∀ j < i, resp_stopped (env (t + j)) = false) →
      (wait_for_lxc_stop env t n).res = true ∧
        countGet (wait_for_lxc_stop env t n).trace = i + 1 := by
  intro i
  induction i with
  | zero =>
    intro n t hn hstop _
    cases n with
    | zero => omega
    | succ n =>
      rw [Nat.add_zero] at hstop
      cases h : env t with
      | succ st =>
        rw [h] at hstop
        have hs : st.getD "unknown" = "stopped" := by
          simpa [resp_stopped] using hstop
        rw [wait_for_lxc_stop, h]
        simp [hs, countGet]
      | fail m => rw [h] at hstop; simp [resp_stopped] at hstop
  | succ i ih =>
    intro n t hn hstop hbefore
    cases n with
    | zero => omega
    | succ n =>
      have h0 : resp_stopped (env t) = false := by
        have := hbefore 0 (Nat.succ_pos i)
        rwa [Nat.add_zero] at this
      have hshift : resp_stopped (env (t + 1 + i)) = true := by
        have : t + 1 + i = t + (i + 1) := by omega
        rw [this]; exact hstop
      have hbefore' : ∀ j < i, resp_stopped (env (t + 1 + j)) = false := by
        intro j hj
        have : t + 1 + j = t + (j + 1) := by omega
        rw [this]
        exact hbefore (j + 1) (Nat.succ_lt_succ hj)
      have hrec := ih n (t + 1) (Nat.lt_of_succ_lt_succ hn) hshift hbefore'
      cases h : env t with
      | succ st =>
        have hs : ¬ st.getD "unknown" = "stopped" := by
          rw [h] at h0
          simpa [resp_stopped] using h0
        rw [wait_for_lxc_stop, h]
        simp only [hs, if_neg, not_false_iff]
        refine ⟨hrec.1, ?_⟩
        simp only [countGet, List.countP_cons] at hrec ⊢
        simp [hrec.2]
      | fail m =>
        rw [wait_for_lxc_stop, h]
        refine ⟨hrec.1, ?_⟩
        simp only [countGet, List.countP_cons] at hrec ⊢
        simp [hrec.2]

/-- Claim C3: `waitForUnlock` returns true immediately on a successful status
read; on a failure whose lowercased message contains "timeout" or "lock" it
sleeps 1 second and keeps polling; on any other failure it returns true
immediately (fail-open); and it returns false exactly when all `maxAttempts`
polls fail with timeout/lock-classified errors. -/
theorem unlock_poll_spec (env : Nat → Resp) (t : Nat) :
    (∀ n st, env t = .succ st →
      wait_for_lxc_unlock env t (n + 1) = ⟨true, t + 1, [.call .getStatus]⟩)
    ∧ (∀ n m, env t = .fail m → lock_classified m = false →
      wait_for_lxc_unlock env t (n + 1) = ⟨true, t + 1, [.call .getStatus]⟩)
    ∧ (∀ n m, env t = .fail m → lock_classified m = true →
      (wait_for_lxc_unlock env t (n + 1)).res = (wait_for_lxc_unlock env (t + 1) n).res ∧
      (wait_for_lxc_unlock env t (n + 1)).trace =
        .call .getStatus :: .sleep 1 :: (wait_for_lxc_unlock env (t + 1) n).trace)
    ∧ (∀ n, (wait_for_lxc_unlock env t n).res = false ↔
        ∀ i < n, ∃ m, env (t + i) = .fail m ∧ lock_classified m = true) := by
  refine ⟨?_, ?_, ?_, ?_⟩
  · intro n st h
    rw [wait_for_lxc_unlock, h]
  · intro n m h hc
    rw [wait_for_lxc_unlock, h]
    simp [hc]
  · intro n m h hc
    rw [wait_for_lxc_unlock, h]
    simp [hc]
  · intro n
    exact unlock_false_iff env n t

/-- Witness for `unlock_poll_spec` at a concrete oracle: a non-lock failure
("boom") returns true immediately, and an always-"lock"-failing oracle makes
the loop return false. -/
theorem unlock_poll_spec_witness :
    wait_for_lxc_unlock (fun _ => Resp.fail "boom") 0 30 = ⟨true, 1, [.call .getStatus]⟩
    ∧ (wait_for_lxc_unlock (fun _ => Resp.fail "lock timeout") 0 3).res = false := by
  constructor
  · exact (unlock_poll_spec (fun _ => Resp.fail "boom") 0).2.1 29 "boom" rfl (by decide)
  · rw [((unlock_poll_spec (fun _ => Resp.fail "lock timeout") 0).2.2.2 3)]
    intro i _
    exact ⟨"lock timeout", rfl, by decide⟩

/-- Claim C4: `waitForStop` returns true iff some status read within the
first `maxAttempts` attempts reports "stopped" (and it returns at the first
such attempt, having issued exactly that many reads); a read failure just
continues the loop; after exactly `maxAttempts` reads none of which reported
"stopped" it returns false. -/
theorem stop_poll_spec (env : Nat → Resp) (t : Nat) :
    (∀ n, (wait_for_lxc_stop env t n).res = true ↔
      ∃ i < n, resp_stopped (env (t + i)) = true)
    ∧ (∀ n i, i < n → resp_stopped (env (t + i)) = true →
      (∀ j < i, resp_stopped (env (t + j)) = false) →
      (wait_for_lxc_stop env t n).res = true ∧
        countGet (wait_for_lxc_stop env t n).trace = i + 1)
    ∧ (∀ n, (wait_for_lxc_stop env t n).res = false →
      countGet (wait_for_lxc_stop env t n).trace = n) := by
  refine ⟨fun n => stop_true_iff env n t, ?_, fun n => stop_false_countGet env n t⟩
  intro n i hi hstop hbefore
  exact stop_first_hit env i n t hi hstop hbefore

/-- Witness for `stop_poll_spec`: an oracle that reports "running" twice then
"stopped" makes the loop succeed after exactly 3 reads; an all-failing oracle
makes it return false after exactly 5 reads. -/
theorem stop_poll_spec_witness :
    (wait_for_lxc_stop (fun u => if u = 2 then Resp.succ (some "stopped") else Resp.succ (some "running")) 0 60).res = true
    ∧ countGet (wait_for_lxc_stop (fun u => if u = 2 then Resp.succ (some "stopped") else Resp.succ (some "running")) 0 60).trace = 3
    ∧ countGet (wait_for_lxc_stop (fun _ => Resp.fail "boom") 0 5).trace = 5 := by
  have h1 := (stop_poll_spec (fun u => if u = 2 then Resp.succ (some "stopped") else Resp.succ (some "running")) 0).2.1
      60 2 (by decide) (by decide) (by decide)
  refine ⟨h1.1, h1.2, ?_⟩
  refine (stop_poll_spec (fun _ => Resp.fail "boom") 0).2.2 5 ?_
  cases hres : (wait_for_lxc_stop (fun _ => Resp.fail "boom") 0 5).res with
  | false => rfl
  | true =>
    rcases ((stop_poll_spec (fun _ => Resp.fail "boom") 0).1 5).mp hres with ⟨i, _, hstop⟩
    simp [resp_stopped] at hstop

/-- The status re-check performed inside `delete_lxc`'s retry branch
(proxmox_api.py:459-471): a `get_lxc` read; if it reports "running", a
shutdown POST and, when that POST succeeds, `_wait_for_lxc_stop(id, 15)`;
every failure in this block is swallowed. -/
def pre_retry_check (env : Nat → Resp) (t : Nat) : Nat × List Ev :=
  match env t with
  | .succ st =>
    if st.getD "unknown" = "running" then
      match env (t + 1) with
      | .succ _ =>
        let r := wait_for_lxc_stop env (t + 2) 15
        (r.next, .call .getStatus :: .call .postShutdown :: r.trace)
      | .fail _ => (t + 2, [.call .getStatus, .call .postShutdown])
    else (t + 1, [.call .getStatus])
  | .fail _ => (t + 1, [.call .getStatus])

/-- The bounded retry loop of `delete_lxc` (proxmox_api.py:440-477), with
`n` the remaining attempts (10 initially) and `i` the 0-based index of the
current attempt: issue the DELETE; on success return; on a failure whose
lowercased message contains "container is running", "timeout" or "lock",
with attempts remaining, run the status re-check, sleep `(i+1)*3` seconds
and retry; otherwise re-raise the error. -/
def delete_retry (env : Nat → Resp) : Nat → Nat → Nat → Run (Except String Unit)
  | 0, _, t => ⟨.ok (), t, []⟩
  | n + 1, i, t =>
    match env t with
    | .succ _ => ⟨.ok (), t + 1, [.call .delete]⟩
    | .fail m =>
      if retry_classified m = true ∧ 0 < n then
        let p := pre_retry_check env (t + 1)
        let r := delete_retry env n (i + 1) p.1
        ⟨r.res, r.next, .call .delete :: p.2 ++ .sleep ((i + 1) * 3) :: r.trace⟩
      else ⟨.error m, t + 1, [.call .delete]⟩

/-- The stop sequence of `delete_lxc` (proxmox_api.py:415-432), entered with
the status string read beforehand: if it is "running", issue a graceful stop
POST (its failure logged, not fatal), wait `_wait_for_lxc_stop(id, 60)`; if
still not stopped, issue a shutdown POST and, when that POST succeeds,
`_wait_for_lxc_stop(id, 30)` (failures logged, not fatal).  Returns the next
request index and the trace. -/
def stop_phase (env : Nat → Resp) (t : Nat) (status : String) : Nat × List Ev :=
  if status = "running" then
    let w1 := wait_for_lxc_stop env (t + 1) 60
    if w1.res then (w1.next, .call .postStop :: w1.trace)
    else
      match env w1.next with
      | .succ _ =>
        let w2 := wait_for_lxc_stop env (w1.next + 1) 30
        (w2.next, .call .postStop :: w1.trace ++ .call .postShutdown :: w2.trace)
      | .fail _ => (w1.next + 1, .call .postStop :: w1.trace ++ [.call .postShutdown])
  else (t, [])

/-- `ProxmoxAPI.delete_lxc` (proxmox_api.py:402-480): wait for unlock (30
attempts), read the status, run the stop sequence if running, wait for
unlock again (30 attempts), then the bounded delete retry loop with 10
attempts. -/
def delete_lxc (env : Nat → Resp) (t : Nat) : Run (Except String Unit) :=
  let u1 := wait_for_lxc_unlock env t 30
  let g := get_lxc env u1.next
  let sp := stop_phase env g.next (g.res.getD "unknown")
  let u2 := wait_for_lxc_unlock env sp.1 30
  let r := delete_retry env 10 0 u2.next
  ⟨r.res, r.next, u1.trace ++ g.trace ++ sp.2 ++ u2.trace ++ r.trace⟩

lemma countDel_unlock (env : Nat → Resp) :
    ∀ n t, countDel (wait_for_lxc_unlock env t n).trace = 0 := by
  intro n
  induction n with
  | zero => intro t; simp [wait_for_lxc_unlock, countDel]
  | succ n ih =>
    intro t
    cases h : env t with
    | succ st => simp [wait_for_lxc_unlock, h, countDel]
    | fail m =>
      by_cases hc : lock_classified m
      · simp only [wait_for_lxc_unlock, h, hc, if_pos]
        have := ih (t + 1)
        simp only [countDel, List.countP_cons] at this ⊢
        simp [this]
      · simp [wait_for_lxc_unlock, h, hc, countDel]

lemma countDel_stop (env : Nat → Resp) :
    ∀ n t, countDel (wait_for_lxc_stop env t n).trace = 0 := by
  intro n
  induction n with
  | zero => intro t; simp [wait_for_lxc_stop, countDel]
  | succ n ih =>
    intro t
    cases h : env t with
    | succ st =>
      by_cases hs : st.getD "unknown" = "stopped"
      · simp [wait_for_lxc_stop, h, hs, countDel]
      · simp only [wait_for_lxc_stop, h, hs, if_neg, not_false_iff]
        have := ih (t + 1)
        simp only [countDel, List.countP_cons] at this ⊢
        simp [this]
    | fail m =>
      simp only [wait_for_lxc_stop, h]
      have := ih (t + 1)
      simp only [countDel, List.countP_cons] at this ⊢
      simp [this]

lemma countDel_get (env : Nat → Resp) (t : Nat) :
    countDel (get_lxc env t).trace = 0 := by
  cases h : env t <;> simp [get_lxc, h, countDel]

lemma countDel_pre (env : Nat → Resp) (t : Nat) :
    countDel (pre_retry_check env t).2 = 0 := by
  cases h : env t with
  | succ st =>
    by_cases hs : st.getD "unknown" = "running"
    · cases h2 : env (t + 1) with
      | succ st2 =>
        simp only [pre_retry_check, h, hs, if_pos, h2]
        have := countDel_stop env 15 (t + 2)
        simp only [countDel, List.countP_cons] at this ⊢
        simp [this]
      | fail m => simp [pre_retry_check, h, hs, h2, countDel]
    · simp [pre_retry_check, h, hs, countDel]
  | fail m => simp [pre_retry_check, h, countDel]

lemma countDel_stop_phase (env : Nat → Resp) (t : Nat) (s : String) :
    countDel (stop_phase env t s).2 = 0 := by
  by_cases hs : s = "running"
  · simp only [stop_phase, hs, if_pos]
    by_cases hw : (wait_for_lxc_stop env (t + 1) 60).res
    · have := countDel_stop env 60 (t + 1)
      simp only [hw, if_pos, countDel, List.countP_cons] at this ⊢
      simp [this]
    · simp only [hw, if_neg, not_false_iff, Bool.not_eq_true]
      cases h2 : env (wait_for_lxc_stop env (t + 1) 60).next with
      | succ st2 =>
        have h60 := countDel_stop env 60 (t + 1)
        have h30 := countDel_stop env 30 ((wait_for_lxc_stop env (t + 1) 60).next + 1)
        simp only [countDel, List.countP_cons, List.countP_append] at h60 h30 ⊢
        simp [h60, h30]
      | fail m =>
        have h60 := countDel_stop env 60 (t + 1)
        simp only [countDel, List.countP_cons, List.countP_append] at h60 ⊢
        simp [h60]
  · simp [stop_phase, hs, countDel]

lemma delete_retry_step (env : Nat → Resp) (n i t : Nat) (m : String)
    (hm : env t = .fail m) (hc : retry_classified m = true ∧ 0 < n) :
    delete_retry env (n + 1) i t =
      ⟨(delete_retry env n (i + 1) (pre_retry_check env (t + 1)).1).res,
        (delete_retry env n (i + 1) (pre_retry_check env (t + 1)).1).next,
        .call .delete :: (pre_retry_check env (t + 1)).2
          ++ .sleep ((i + 1) * 3)
            :: (delete_retry env n (i + 1) (pre_retry_check env (t + 1)).1).trace⟩ := by
  conv_lhs => rw [delete_retry.eq_2]
  rw [hm]
  simp [hc]

lemma delete_retry_countDel_le (env : Nat → Resp) :
    ∀ n i t, countDel (delete_retry env n i t).trace ≤ n := by
  intro n
  induction n with
  | zero => intro i t; simp [delete_retry, countDel]
  | succ n ih =>
    intro i t
    cases h : env t with
    | succ st => simp [delete_retry, h, countDel]
    | fail m =>
      by_cases hc : retry_classified m = true ∧ 0 < n
      · simp only [delete_retry, h, hc, if_pos]
        have hrec := ih (i + 1) (pre_retry_check env (t + 1)).1
        have hpre := countDel_pre env (t + 1)
        simp only [countDel, List.countP_cons, List.countP_append] at hrec hpre ⊢
        simp [hpre]
        omega
      · simp [delete_retry, h, hc, countDel]

lemma delete_retry_pos (env : Nat → Resp) :
    ∀ n i t, 0 < n → ∃ rest, (delete_retry env n i t).trace = .call .delete :: rest := by
  intro n i t hn
  cases n with
  | zero => omega
  | succ n =>
    cases h : env t with
    | succ st => exact ⟨[], by simp [delete_retry, h]⟩
    | fail m =>
      by_cases hc : retry_classified m = true ∧ 0 < n
      · exact ⟨(pre_retry_check env (t + 1)).2
            ++ .sleep ((i + 1) * 3)
              :: (delete_retry env n (i + 1) (pre_retry_check env (t + 1)).1).trace,
          by rw [delete_retry_step env n i t m h hc]; rfl⟩
      · exact ⟨[], by simp [delete_retry, h, hc]⟩

lemma delete_retry_allfail (env : Nat → Resp)
    (hall : ∀ u, ∃ m, env u = .fail m ∧ retry_classified m = true) :
    ∀ n i t, 0 < n → ∃ m, env (t + 2 * (n - 1)) = .fail m ∧
      (delete_retry env n i t).res = .error m ∧
      countDel (delete_retry env n i t).trace = n := by
  intro n
  induction n with
  | zero => intro i t h; omega
  | succ n ih =>
    intro i t _
    rcases hall t with ⟨m, hm, hcm⟩
    cases n with
    | zero =>
      refine ⟨m, by simpa using hm, ?_, ?_⟩
      · simp [delete_retry, hm, hcm]
      · simp [delete_retry, hm, hcm, countDel]
    | succ n' =>
      have hc : retry_classified m = true ∧ 0 < n' + 1 := ⟨hcm, Nat.succ_pos n'⟩
      have hpre : pre_retry_check env (t + 1) = (t + 2, [.call .getStatus]) := by
        rcases hall (t + 1) with ⟨m1, hm1, _⟩
        simp [pre_retry_check, hm1]
      rcases ih (i + 1) (t + 2) (Nat.succ_pos n') with ⟨m', hm', hres, hcount⟩
      have hstep := delete_retry_step env (n' + 1) i t m hm hc
      refine ⟨m', ?_, ?_, ?_⟩
      · have : t + 2 + 2 * (n' + 1 - 1) = t + 2 * (n' + 1 + 1 - 1) := by omega
        rwa [this] at hm'
      · rw [hstep]
        simpa [hpre] using hres
      · rw [hstep]
        simp only [hpre, countDel, List.countP_cons, List.countP_append,
          List.countP_nil] at hcount ⊢
        simp [hcount]
        omega

/-- Claim C1: the delete retry loop issues at most 10 DELETE calls; a
failure whose lowercased message contains none of "container is running",
"timeout", "lock" is re-raised immediately after a single DELETE call, even
on the first attempt; a classified failure with attempts remaining runs the
status re-check (no DELETE calls in it) and sleeps `(i+1)*3` seconds
immediately before the next attempt; on the last remaining attempt any
failure is re-raised; and when every call fails with a classified error,
all 10 attempts are used and the last error is raised. -/
theorem delete_retry_spec (env : Nat → Resp) (t : Nat) :
    countDel (delete_lxc env t).trace ≤ 10
    ∧ (∀ n i u m, env u = .fail m → retry_classified m = false →
        delete_retry env (n + 1) i u = ⟨.error m, u + 1, [.call .delete]⟩)
    ∧ (∀ n i u m, env u = .fail m → retry_classified m = true → 0 < n →
        (delete_retry env (n + 1) i u).res =
          (delete_retry env n (i + 1) (pre_retry_check env (u + 1)).1).res
        ∧ (delete_retry env (n + 1) i u).trace =
            .call .delete :: (pre_retry_check env (u + 1)).2
              ++ .sleep ((i + 1) * 3)
                :: (delete_retry env n (i + 1) (pre_retry_check env (u + 1)).1).trace
        ∧ countDel (pre_retry_check env (u + 1)).2 = 0)
    ∧ (∀ i u m, env u = .fail m →
        delete_retry env 1 i u = ⟨.error m, u + 1, [.call .delete]⟩)
    ∧ (∀ n i u, 0 < n → ∃ rest, (delete_retry env n i u).trace = .call .delete :: rest)
    ∧ ((∀ u, ∃ m, env u = .fail m ∧ retry_classified m = true) →
        ∃ m, (∃ u, env u = .fail m) ∧ (delete_lxc env t).res = .error m ∧
          countDel (delete_lxc env t).trace = 10) := by
  refine ⟨?_, ?_, ?_, ?_, delete_retry_pos env, ?_⟩
  · show countDel (delete_lxc env t).trace ≤ 10
    simp only [delete_lxc, countDel, List.countP_append]
    have h1 := countDel_unlock env 30 t
    have h2 := countDel_get env (wait_for_lxc_unlock env t 30).next
    have h3 := countDel_stop_phase env ((get_lxc env (wait_for_lxc_unlock env t 30).next).next)
      ((get_lxc env (wait_for_lxc_unlock env t 30).next).res.getD "unknown")
    have h4 := countDel_unlock env 30 (stop_phase env
      ((get_lxc env (wait_for_lxc_unlock env t 30).next).next)
      ((get_lxc env (wait_for_lxc_unlock env t 30).next).res.getD "unknown")).1
    have h5 := delete_retry_countDel_le env 10 0 (wait_for_lxc_unlock env (stop_phase env
      ((get_lxc env (wait_for_lxc_unlock env t 30).next).next)
      ((get_lxc env (wait_for_lxc_unlock env t 30).next).res.getD "unknown")).1 30).next
    simp only [countDel] at h1 h2 h3 h4 h5
    omega
  · intro n i u m h hc
    have hcond : ¬ (retry_classified m = true ∧ 0 < n) := by simp [hc]
    simp [delete_retry, h, hcond]
  · intro n i u m h hc hn
    have hcond : retry_classified m = true ∧ 0 < n := ⟨hc, hn⟩
    refine ⟨?_, ?_, countDel_pre env (u + 1)⟩
    · simp [delete_retry, h, hcond]
    · simp [delete_retry, h, hcond]
  · intro i u m h
    simp [delete_retry, h]
  · intro hall
    rcases delete_retry_allfail env hall 10 0 (wait_for_lxc_unlock env (stop_phase env
      ((get_lxc env (wait_for_lxc_unlock env t 30).next).next)
      ((get_lxc env (wait_for_lxc_unlock env t 30).next).res.getD "unknown")).1 30).next
      (by omega) with ⟨m, hm, hres, hcount⟩
    refine ⟨m, ⟨_, hm⟩, ?_, ?_⟩
    · simpa [delete_lxc] using hres
    · simp only [delete_lxc, countDel, List.countP_append]
      have h1 := countDel_unlock env 30 t
      have h2 := countDel_get env (wait_for_lxc_unlock env t 30).next
      have h3 := countDel_stop_phase env ((get_lxc env (wait_for_lxc_unlock env t 30).next).next)
        ((get_lxc env (wait_for_lxc_unlock env t 30).next).res.getD "unknown")
      have h4 := countDel_unlock env 30 (stop_phase env
        ((get_lxc env (wait_for_lxc_unlock env t 30).next).next)
        ((get_lxc env (wait_for_lxc_unlock env t 30).next).res.getD "unknown")).1
      simp only [countDel] at h1 h2 h3 h4 hcount
      omega

/-- Witness for `delete_retry_spec`: a non-retryable failure ("boom") aborts
the retry loop after a single DELETE call with the error re-raised, and an
always-"lock"-failing oracle makes the whole delete issue exactly 10 DELETE
calls and raise the last error. -/
theorem delete_retry_spec_witness :
    delete_retry (fun _ => Resp.fail "boom") 10 0 5 = ⟨.error "boom", 6, [.call .delete]⟩
    ∧ (delete_lxc (fun _ => Resp.fail "lock") 0).res = .error "lock"
    ∧ countDel (delete_lxc (fun _ => Resp.fail "lock") 0).trace = 10 := by
  refine ⟨(delete_retry_spec (fun _ => Resp.fail "boom") 5).2.1 9 0 5 "boom" rfl (by decide), ?_⟩
  rcases (delete_retry_spec (fun _ => Resp.fail "lock") 0).2.2.2.2.2
      (fun u => ⟨"lock", rfl, by decide⟩) with ⟨m, ⟨u, hm⟩, hres, hcount⟩
  have hm' : m = "lock" := by
    have := hm.symm
    injection this
  subst hm'
  exact ⟨hres, hcount⟩

/-- Claim C7: `delete_lxc` performs, in order, `waitForUnlock(id, 30)`, one
status read, the stop sequence (only when the status is "running": a stop
POST, `waitForStop(id, 60)`, and if still not stopped a shutdown POST
followed — only when that POST succeeds — by `waitForStop(id, 30)`), a second
`waitForUnlock(id, 30)`, and then the delete retry loop; no outcome of the
stop/wait phase prevents the DELETE call from being issued. -/
theorem delete_sequence_spec (env : Nat → Resp) (t : Nat) :
    ((delete_lxc env t).trace =
      (wait_for_lxc_unlock env t 30).trace
        ++ .call .getStatus
          :: (stop_phase env ((wait_for_lxc_unlock env t 30).next + 1)
                (read_status (env (wait_for_lxc_unlock env t 30).next))).2
        ++ (wait_for_lxc_unlock env
              (stop_phase env ((wait_for_lxc_unlock env t 30).next + 1)
                (read_status (env (wait_for_lxc_unlock env t 30).next))).1 30).trace
        ++ (delete_retry env 10 0
              (wait_for_lxc_unlock env
                (stop_phase env ((wait_for_lxc_unlock env t 30).next + 1)
                  (read_status (env (wait_for_lxc_unlock env t 30).next))).1 30).next).trace)
    ∧ (∀ u s, s ≠ "running" → stop_phase env u s = (u, []))
    ∧ (∀ u, (wait_for_lxc_stop env (u + 1) 60).res = true →
        stop_phase env u "running" =
          ((wait_for_lxc_stop env (u + 1) 60).next,
            .call .postStop :: (wait_for_lxc_stop env (u + 1) 60).trace))
    ∧ (∀ u st, (wait_for_lxc_stop env (u + 1) 60).res = false →
        env (wait_for_lxc_stop env (u + 1) 60).next = .succ st →
        stop_phase env u "running" =
          ((wait_for_lxc_stop env ((wait_for_lxc_stop env (u + 1) 60).next + 1) 30).next,
            .call .postStop :: (wait_for_lxc_stop env (u + 1) 60).trace
              ++ .call .postShutdown
                :: (wait_for_lxc_stop env ((wait_for_lxc_stop env (u + 1) 60).next + 1) 30).trace))
    ∧ (∀ u m, (wait_for_lxc_stop env (u + 1) 60).res = false →
        env (wait_for_lxc_stop env (u + 1) 60).next = .fail m →
        stop_phase env u "running" =
          ((wait_for_lxc_stop env (u + 1) 60).next + 1,
            .call .postStop :: (wait_for_lxc_stop env (u + 1) 60).trace ++ [.call .postShutdown]))
    ∧ 1 ≤ countDel (delete_lxc env t).trace := by
  refine ⟨?_, ?_, ?_, ?_, ?_, ?_⟩
  · cases h : env (wait_for_lxc_unlock env t 30).next with
    | succ st => simp [delete_lxc, get_lxc, h, read_status]
    | fail m => simp [delete_lxc, get_lxc, h, read_status]
  · intro u s hs
    simp [stop_phase, hs]
  · intro u hw
    simp [stop_phase, hw]
  · intro u st hw h2
    simp [stop_phase, hw, h2]
  · intro u m hw h2
    simp [stop_phase, hw, h2]
  · rcases delete_retry_pos env 10 0 (wait_for_lxc_unlock env (stop_phase env
      ((get_lxc env (wait_for_lxc_unlock env t 30).next).next)
      ((get_lxc env (wait_for_lxc_unlock env t 30).next).res.getD "unknown")).1 30).next
      (by omega) with ⟨rest, hrest⟩
    simp only [delete_lxc, countDel, List.countP_append, hrest, List.countP_cons]
    simp
    omega

/-- Witness for `delete_sequence_spec`: with an oracle that always reports
"stopped", the stop sequence is skipped entirely, and the delete loop is
still reached (at least one DELETE call in the trace). -/
theorem delete_sequence_spec_witness :
    stop_phase (fun _ => Resp.succ (some "stopped")) 7 "stopped" = (7, [])
    ∧ 1 ≤ countDel (delete_lxc (fun _ => Resp.succ (some "stopped")) 0).trace :=
  ⟨(delete_sequence_spec (fun _ => Resp.succ (some "stopped")) 0).2.1 7 "stopped" (by decide),
    (delete_sequence_spec (fun _ => Resp.succ (some "stopped")) 0).2.2.2.2.2⟩

/-- A Python property dict (insertion-ordered, unique keys in practice). -/
abbrev Props := List (String × Val)

/-- `d.get(k)` / `k in d` on a property dict: first entry with the key. -/
def lookup_prop : Props → String → Option Val
  | [], _ => none
  | (k, v) :: rest, key => if k = key then some v else lookup_prop rest key

/-- Lookup in a str→str dict. -/
def str_dict_lookup : List (String × String) → String → Option String
  | [], _ => none
  | (k, v) :: rest, key => if k = key then some v else str_dict_lookup rest key

/-- Python `==` on two dicts: same key set with equal values (order does not
matter). -/
def py_dict_eq (d1 d2 : List (String × String)) : Bool :=
  d1.all (fun p => str_dict_lookup d2 p.1 == some p.2)
    && d2.all (fun p => str_dict_lookup d1 p.1 == some p.2)

/-- Python `==` on property values (dicts compare order-insensitively;
`bool` and `int` compare across types as in Python). -/
def py_val_eq : Val → Val → Bool
  | .vint a, .vint b => a == b
  | .vstr a, .vstr b => a == b
  | .vbool a, .vbool b => a == b
  | .vint a, .vbool b => a == (if b then 1 else 0)
  | .vbool a, .vint b => (if a then 1 else 0 : Int) == b
  | .vdict a, .vdict b => py_dict_eq a b
  | _, _ => false

/-- Python `==` on `d.get(k)` results (`None` equals only `None`). -/
def py_eq_opt : Option Val → Option Val → Bool
  | none, none => true
  | some a, some b => py_val_eq a b
  | _, _ => false

/-- Python `int(v)`. -/
def py_int : Val → Except String Int
  | .vint n => .ok n
  | .vbool b => .ok (if b then 1 else 0)
  | .vstr s =>
    match s.toInt? with
    | some n => .ok n
    | none => .error "ValueError"
  | .vdict _ => .error "TypeError"

/-- Python truthiness of a property value. -/
def py_truthy : Val → Bool
  | .vint n => n != 0
  | .vstr s => s != ""
  | .vbool b => b
  | .vdict d => !d.isEmpty

/-- `",".join(f"k=v" ...)` over a features dict (proxmox_api.py:321). -/
def serialize_features (d : List (String × String)) : String :=
  String.intercalate "," (d.map (fun p => p.1 ++ "=" ++ p.2))

/-- Python `d[k] = v` on an insertion-ordered dict: replace in place if the
key exists, else append. -/
def dict_set (d : Props) (k : String) (v : Val) : Props :=
  if (lookup_prop d k).isSome then d.map (fun p => if p.1 = k then (k, v) else p)
  else d ++ [(k, v)]

/-- Python `d1.copy(); d1.update(d2)`: set every entry of `d2` in order. -/
def dict_update (d1 d2 : Props) : Props :=
  d2.foldl (fun acc p => dict_set acc p.1 p.2) d1

/-- Split a character list at the first ':' (Python `split(":", 1)`);
`none` when there is no colon. -/
def split_first_colon : List Char → Option (List Char × List Char)
  | [] => none
  | c :: cs =>
    if c = ':' then some ([], cs)
    else
      match split_first_colon cs with
      | none => none
      | some pr => some (c :: pr.1, pr.2)

/-- Numeric value of a digit string (Python `int` on an all-digits string). -/
def nat_of_digits (l : List Char) : Nat :=
  l.foldl (fun a c => a * 10 + (c.toNat - 48)) 0

/-- The validation performed by `_resize_lxc_disk` (proxmox_api.py:256-271)
on a disk spec string: empty strings, strings without ':' and strings whose
segment after the first ':' is not a nonempty digit string (`str.isdigit`)
are rejected; otherwise the size in GB is the parsed integer. -/
def parse_disk_size (cfg : String) : Option Nat :=
  if cfg = "" then none
  else
    match split_first_colon cfg.data with
    | none => none
    | some pr =>
      if pr.2 ≠ [] ∧ pr.2.all Char.isDigit then some (nat_of_digits pr.2) else none

/-- `ProxmoxAPI._resize_lxc_disk` (proxmox_api.py:250-284): a spec failing
validation issues no call and returns an empty dict; otherwise one resize
PUT with body `disk = slot`, `size = f"{int(sizePart)}G"` is issued, and a
call failure is re-raised. -/
def resize_lxc_disk (env : Nat → Resp) (t : Nat) (slot : String) (cfg : String) :
    Run (Except String Unit) :=
  match parse_disk_size cfg with
  | none => ⟨.ok (), t, []⟩
  | some n =>
    match env t with
    | .succ _ => ⟨.ok (), t + 1, [.call (.putResize slot (toString n ++ "G"))]⟩
    | .fail m => ⟨.error m, t + 1, [.call (.putResize slot (toString n ++ "G"))]⟩

/-- The disks loop of `update_lxc` (proxmox_api.py:301-308): resize every
slot of the given disks dict in order, swallowing per-slot failures. -/
def resize_all (env : Nat → Resp) : Nat → List (String × String) → Nat × List Ev
  | t, [] => (t, [])
  | t, (slot, cfg) :: rest =>
    let r := resize_lxc_disk env t slot cfg
    let k := resize_all env r.next rest
    (k.1, r.trace ++ k.2)

/-- The mutable fields compared by `LXCContainerProvider.update`
(proxmox_lxc.py:173-190), in source order. -/
def update_fields : List String :=
  ["cores", "memory", "swap", "hostname", "disks", "networks", "features", "startup", "onboot"]

/-- One comparison of the update diff: include the field iff
`new_props.get(f) != old_props.get(f)`; the included value is `new_props[f]`
(a KeyError when `new` lacks the key). -/
def diff_field (old new : Props) (f : String) : Except String (Option (String × Val)) :=
  if py_eq_opt (lookup_prop new f) (lookup_prop old f) then .ok none
  else
    match lookup_prop new f with
    | some v => .ok (some (f, v))
    | none => .error "KeyError"

/-- The per-field diff of `LXCContainerProvider.update` over a list of field
names, in order. -/
def update_diff_go (old new : Props) : List String → Except String Props
  | [] => .ok []
  | f :: fs =>
    match diff_field old new f with
    | .error e => .error e
    | .ok none => update_diff_go old new fs
    | .ok (some kv) =>
      match update_diff_go old new fs with
      | .error e => .error e
      | .ok rest => .ok (kv :: rest)

/-- Add `int(params[f])` to the config body when the key is present
(proxmox_api.py:291-296). -/
def add_int_field (params : Props) (f : String) (acc : Props) : Except String Props :=
  match lookup_prop params f with
  | none => .ok acc
  | some v =>
    match py_int v with
    | .error e => .error e
    | .ok n => .ok (acc ++ [(f, .vint n)])

/-- Add `params[f]` unchanged to the config body when the key is present. -/
def add_raw_field (params : Props) (f : String) (acc : Props) : Props :=
  match lookup_prop params f with
  | none => acc
  | some v => acc ++ [(f, v)]

/-- The non-disk part of `update_lxc`'s config body built before the disks
loop: cores, memory, swap (as ints) and hostname (proxmox_api.py:290-298). -/
def config_body_base (params : Props) : Except String Props := do
  let a1 ← add_int_field params "cores" []
  let a2 ← add_int_field params "memory" a1
  let a3 ← add_int_field params "swap" a2
  return add_raw_field params "hostname" a3

/-- The non-disk part of `update_lxc`'s config body built after the disks
loop: network entries, serialized features, startup, onboot
(proxmox_api.py:311-330).  Disk entries are never added to the body. -/
def config_body_rest (params : Props) (acc : Props) : Except String Props := do
  let a1 ← match lookup_prop params "networks" with
    | none => pure acc
    | some (.vdict d) => pure (acc ++ d.map (fun p => (p.1, Val.vstr p.2)))
    | some _ => Except.error "AttributeError"
  let a2 ← match lookup_prop params "features" with
    | none => pure a1
    | some (.vdict d) =>
      pure (if d.isEmpty then a1 else a1 ++ [("features", Val.vstr (serialize_features d))])
    | some v => if py_truthy v then Except.error "AttributeError" else pure a1
  let a3 := add_raw_field params "startup" a2
  match lookup_prop params "onboot" with
  | none => return a3
  | some v => return a3 ++ [("onboot", Val.vint (if py_truthy v then 1 else 0))]

/-- The tail of `update_lxc` after the disks loop: finish the config body;
issue one config PUT iff the body is nonempty, else no request
(proxmox_api.py:334-341). -/
def update_lxc_after (env : Nat → Resp) (t : Nat) (tr0 : List Ev) (params acc : Props) :
    Run (Except String Unit) :=
  match config_body_rest params acc with
  | .error e => ⟨.error e, t, tr0⟩
  | .ok body =>
    if body.isEmpty then ⟨.ok (), t, tr0⟩
    else
      match env t with
      | .succ _ => ⟨.ok (), t + 1, tr0 ++ [.call (.putConfig body)]⟩
      | .fail m => ⟨.error m, t + 1, tr0 ++ [.call (.putConfig body)]⟩

/-- `ProxmoxAPI.update_lxc` (proxmox_api.py:286-341): build the non-disk
config body; run the per-slot resize loop for a `disks` entry (failures
swallowed per slot); then issue the config PUT only when the body is
nonempty — disk changes never enter the config body. -/
def update_lxc (env : Nat → Resp) (t : Nat) (params : Props) : Run (Except String Unit) :=
  match config_body_base params with
  | .error e => ⟨.error e, t, []⟩
  | .ok acc =>
    match lookup_prop params "disks" with
    | some (.vdict d) =>
      let rz := resize_all env t d
      update_lxc_after env rz.1 rz.2 params acc
    | some _ => ⟨.error "AttributeError", t, []⟩
    | none => update_lxc_after env t [] params acc

/-- `LXCContainerProvider.update` (proxmox_lxc.py:158-203): compute the
per-field diff; call `update_lxc` only when it is nonempty; read back the
status (failure yields "unknown"); return `old_props` overlaid with
`new_props` with `status` replaced by the fresh read. -/
def provider_update (env : Nat → Resp) (t : Nat) (old new : Props) : Run (Except String Props) :=
  match update_diff_go old new update_fields with
  | .error e => ⟨.error e, t, []⟩
  | .ok params =>
    if params.isEmpty then
      let g := get_lxc env t
      ⟨.ok (dict_set (dict_update old new) "status" (.vstr (g.res.getD "unknown"))),
        g.next, g.trace⟩
    else
      let u := update_lxc env t params
      match u.res with
      | .error e => ⟨.error e, u.next, u.trace⟩
      | .ok _ =>
        let g := get_lxc env u.next
        ⟨.ok (dict_set (dict_update old new) "status" (.vstr (g.res.getD "unknown"))),
          g.next, u.trace ++ g.trace⟩

lemma split_first_colon_append (b : List Char) :
    ∀ a : List Char, ':' ∉ a → split_first_colon (a ++ ':' :: b) = some (a, b) := by
  intro a
  induction a with
  | nil => intro _; simp [split_first_colon]
  | cons c cs ih =>
    intro h
    have hc : ¬ c = ':' := fun hh => h (hh ▸ List.mem_cons_self c cs)
    have hcs : ':' ∉ cs := fun hm => h (List.mem_cons_of_mem c hm)
    simp [split_first_colon, hc, ih hcs]

lemma parse_disk_size_append (storage sz : String) (h : ':' ∉ storage.data) :
    parse_disk_size (storage ++ ":" ++ sz) =
      if sz.data ≠ [] ∧ sz.data.all Char.isDigit then some (nat_of_digits sz.data)
      else none := by
  have hdata : (storage ++ ":" ++ sz).data = storage.data ++ ':' :: sz.data := by
    rw [String.data_append, String.data_append]
    have hcolon : (":" : String).data = [':'] := rfl
    rw [hcolon]
    simp
  have hne : ¬ (storage ++ ":" ++ sz) = "" := by
    intro hh
    rw [String.ext_iff, hdata] at hh
    have : (List.nil : List Char) = storage.data ++ ':' :: sz.data := by
      simpa using hh.symm
    exact absurd this.symm (by simp)
  rw [parse_disk_size, if_neg hne, hdata, split_first_colon_append sz.data storage.data h]

/-- Claim C6 (amended): a disk spec that fails validation — empty, without
':' , or whose segment after the first ':' is not a nonempty digit string —
issues no resize call for that slot; a well-formed spec `storage ++ ":" ++ N`
with `N` a digit string issues exactly one resize call with size
`str(int(N)) + "G"`. -/
theorem resize_validation_spec (env : Nat → Resp) (t : Nat) (slot : String) :
    (∀ cfg, parse_disk_size cfg = none → resize_lxc_disk env t slot cfg = ⟨.ok (), t, []⟩)
    ∧ (∀ cfg n, parse_disk_size cfg = some n →
        (resize_lxc_disk env t slot cfg).trace = [.call (.putResize slot (toString n ++ "G"))]
        ∧ countResize (resize_lxc_disk env t slot cfg).trace = 1)
    ∧ (∀ storage sz : String, ':' ∉ storage.data → sz.data ≠ [] →
        sz.data.all Char.isDigit = true →
        parse_disk_size (storage ++ ":" ++ sz) = some (nat_of_digits sz.data))
    ∧ (∀ storage sz : String, ':' ∉ storage.data →
        ¬ (sz.data ≠ [] ∧ sz.data.all Char.isDigit = true) →
        parse_disk_size (storage ++ ":" ++ sz) = none)
    ∧ (∀ cfg : String, ':' ∉ cfg.data → parse_disk_size cfg = none) := by
  refine ⟨?_, ?_, ?_, ?_, ?_⟩
  · intro cfg h
    simp [resize_lxc_disk, h]
  · intro cfg n h
    cases he : env t <;> simp [resize_lxc_disk, h, he, countResize]
  · intro storage sz h hne hdig
    rw [parse_disk_size_append storage sz h, if_pos ⟨hne, hdig⟩]
  · intro storage sz h hbad
    rw [parse_disk_size_append storage sz h, if_neg hbad]
  · intro cfg h
    rw [parse_disk_size]
    by_cases he : cfg = ""
    · rw [if_pos he]
    · rw [if_neg he]
      have : split_first_colon cfg.data = none := by
        generalize cfg.data = l at h
        induction l with
        | nil => rfl
        | cons c cs ih =>
          have hc : ¬ c = ':' := fun hh => h (hh ▸ List.mem_cons_self c cs)
          have hcs : ':' ∉ cs := fun hm => h (List.mem_cons_of_mem c hm)
          simp [split_first_colon, hc, ih hcs]
      rw [this]

/-- Counterexample to claim C6 as stated: for the spec "local-lvm:0" the
size segment "0" is not a positive integer, yet validation passes
(`str.isdigit` accepts "0") and one resize call with size "0G" is issued. -/
theorem resize_validation_cex :
    parse_disk_size "local-lvm:0" = some 0
    ∧ ¬ (0 < (0 : Nat))
    ∧ (resize_lxc_disk (fun _ => Resp.succ none) 3 "rootfs" "local-lvm:0").trace
        = [.call (.putResize "rootfs" "0G")] := by
  refine ⟨by decide, by decide, by decide⟩

/-- Witness for `resize_validation_spec`: a spec without ':' issues no call;
"local-lvm:8" issues exactly one resize call. -/
theorem resize_validation_spec_witness :
    resize_lxc_disk (fun _ => Resp.succ none) 0 "rootfs" "badspec" = ⟨.ok (), 0, []⟩
    ∧ countResize (resize_lxc_disk (fun _ => Resp.succ none) 0 "rootfs" "local-lvm:8").trace = 1 :=
  ⟨(resize_validation_spec (fun _ => Resp.succ none) 0 "rootfs").1 "badspec" (by decide),
    ((resize_validation_spec (fun _ => Resp.succ none) 0 "rootfs").2.1 "local-lvm:8" 8
      (by decide)).2⟩

lemma update_diff_go_all_eq (old new : Props) :
    ∀ fs, (∀ f ∈ fs, py_eq_opt (lookup_prop new f) (lookup_prop old f) = true) →
      update_diff_go old new fs = .ok [] := by
  intro fs
  induction fs with
  | nil => intro _; rfl
  | cons f fs ih =>
    intro h
    have hf := h f (List.mem_cons_self f fs)
    have hrest := ih (fun g hg => h g (List.mem_cons_of_mem f hg))
    simp [update_diff_go, diff_field, hf, hrest]

/-- Claim C2 (amended): when every mutable field of `new_props` equals the
corresponding field of `old_props`, the per-field diff is empty, update
issues zero resize calls and zero config-update calls — the only request in
its trace is the final status read-back — and it returns the overlaid
outputs with the freshly read status. -/
theorem update_noop_spec (env : Nat → Resp) (t : Nat) (old new : Props)
    (h : ∀ f ∈ update_fields, py_eq_opt (lookup_prop new f) (lookup_prop old f) = true) :
    update_diff_go old new update_fields = .ok []
    ∧ (provider_update env t old new).trace = [.call .getStatus]
    ∧ countResize (provider_update env t old new).trace = 0
    ∧ countConfig (provider_update env t old new).trace = 0
    ∧ (provider_update env t old new).res =
        .ok (dict_set (dict_update old new) "status" (.vstr (read_status (env t)))) := by
  have hd := update_diff_go_all_eq old new update_fields h
  refine ⟨hd, ?_, ?_, ?_, ?_⟩
  · cases he : env t <;> simp [provider_update, hd, get_lxc, he]
  · cases he : env t <;> simp [provider_update, hd, get_lxc, he, countResize]
  · cases he : env t <;> simp [provider_update, hd, get_lxc, he, countConfig]
  · cases he : env t <;> simp [provider_update, hd, get_lxc, he, read_status]

/-- Counterexample to claim C2 as stated: for field-for-field equal
descriptors the diff is empty, yet `update()` still issues a network call
(the status read-back), so "zero network calls" fails. -/
theorem update_noop_cex :
    update_diff_go [("cores", Val.vint 1)] [("cores", Val.vint 1)] update_fields = .ok []
    ∧ (provider_update (fun _ => Resp.succ none) 0
        [("cores", Val.vint 1)] [("cores", Val.vint 1)]).trace ≠ ([] : List Ev) := by
  refine ⟨rfl, by decide⟩

/-- Witness for `update_noop_spec` at concrete equal descriptors. -/
theorem update_noop_spec_witness :
    (provider_update (fun _ => Resp.succ none) 0
        [("cores", Val.vint 1)] [("cores", Val.vint 1)]).trace = [.call .getStatus] :=
  (update_noop_spec (fun _ => Resp.succ none) 0
    [("cores", Val.vint 1)] [("cores", Val.vint 1)] (by decide)).2.1

lemma resize_all_countResize (env : Nat → Resp) :
    ∀ (d : List (String × String)) (t : Nat),
      countResize (resize_all env t d).2 =
        (d.filter (fun p => (parse_disk_size p.2).isSome)).length := by
  intro d
  induction d with
  | nil => intro t; simp [resize_all, countResize]
  | cons p rest ih =>
    intro t
    obtain ⟨slot, cfg⟩ := p
    cases hp : parse_disk_size cfg with
    | none =>
      have hrec := ih t
      simp only [countResize] at hrec ⊢
      simp [resize_all, resize_lxc_disk, hp, List.countP_append, List.filter_cons, hrec]
    | some n =>
      cases he : env t with
      | succ st =>
        have hrec := ih (t + 1)
        simp only [countResize] at hrec ⊢
        simp [resize_all, resize_lxc_disk, hp, he, List.countP_append, List.filter_cons, hrec]
      | fail m =>
        have hrec := ih (t + 1)
        simp only [countResize] at hrec ⊢
        simp [resize_all, resize_lxc_disk, hp, he, List.countP_append, List.filter_cons, hrec]

lemma resize_all_countConfig (env : Nat → Resp) :
    ∀ (d : List (String × String)) (t : Nat), countConfig (resize_all env t d).2 = 0 := by
  intro d
  induction d with
  | nil => intro t; simp [resize_all, countConfig]
  | cons p rest ih =>
    intro t
    obtain ⟨slot, cfg⟩ := p
    cases hp : parse_disk_size cfg with
    | none =>
      have hrec := ih t
      simp only [countConfig] at hrec ⊢
      simp [resize_all, resize_lxc_disk, hp, List.countP_append, hrec]
    | some n =>
      cases he : env t with
      | succ st =>
        have hrec := ih (t + 1)
        simp only [countConfig] at hrec ⊢
        simp [resize_all, resize_lxc_disk, hp, he, List.countP_append, hrec]
      | fail m =>
        have hrec := ih (t + 1)
        simp only [countConfig] at hrec ⊢
        simp [resize_all, resize_lxc_disk, hp, he, List.countP_append, hrec]

lemma update_lxc_disks_only (env : Nat → Resp) (t : Nat) (d : List (String × String)) :
    update_lxc env t [("disks", .vdict d)] =
      ⟨.ok (), (resize_all env t d).1, (resize_all env t d).2⟩ := rfl

/-- Claim C5 (amended): for descriptors whose mutable fields are all equal
except `disks` (both dicts, unequal), the diff contains exactly the `disks`
entry, update issues zero generic config-update calls and one resize attempt
per slot of the *new* disks mapping carrying a valid spec; in particular,
when the new disks mapping is exactly `{"rootfs": spec}` with a valid spec,
exactly one resize call for slot "rootfs" with the new size is issued before
the final status read. -/
theorem update_disks_resize_spec (env : Nat → Resp) (t : Nat) (old new : Props)
    (dOld dNew : List (String × String))
    (h1 : ∀ f ∈ update_fields, f ≠ "disks" →
      py_eq_opt (lookup_prop new f) (lookup_prop old f) = true)
    (h2 : lookup_prop new "disks" = some (.vdict dNew))
    (h3 : lookup_prop old "disks" = some (.vdict dOld))
    (h4 : py_dict_eq dNew dOld = false) :
    update_diff_go old new update_fields = .ok [("disks", .vdict dNew)]
    ∧ (provider_update env t old new).trace = (resize_all env t dNew).2 ++ [.call .getStatus]
    ∧ countConfig (provider_update env t old new).trace = 0
    ∧ countResize (provider_update env t old new).trace =
        (dNew.filter (fun p => (parse_disk_size p.2).isSome)).length
    ∧ (∀ cfg n, dNew = [("rootfs", cfg)] → parse_disk_size cfg = some n →
        (provider_update env t old new).trace =
          [.call (.putResize "rootfs" (toString n ++ "G")), .call .getStatus]) := by
  have hco := h1 "cores" (by decide) (by decide)
  have hme := h1 "memory" (by decide) (by decide)
  have hsw := h1 "swap" (by decide) (by decide)
  have hho := h1 "hostname" (by decide) (by decide)
  have hne := h1 "networks" (by decide) (by decide)
  have hfe := h1 "features" (by decide) (by decide)
  have hst := h1 "startup" (by decide) (by decide)
  have hob := h1 "onboot" (by decide) (by decide)
  have hdisks : py_eq_opt (some (Val.vdict dNew)) (some (Val.vdict dOld)) = false := by
    simp [py_eq_opt, py_val_eq, h4]
  have hdiff : update_diff_go old new update_fields = .ok [("disks", .vdict dNew)] := by
    simp [update_diff_go, update_fields, diff_field, hco, hme, hsw, hho, hne, hfe,
      hst, hob, h2, h3, hdisks]
  have htr : (provider_update env t old new).trace =
      (resize_all env t dNew).2 ++ [.call .getStatus] := by
    cases he : env (resize_all env t dNew).1 <;>
      simp [provider_update, hdiff, update_lxc_disks_only, get_lxc, he]
  refine ⟨hdiff, htr, ?_, ?_, ?_⟩
  · rw [htr]
    have := resize_all_countConfig env dNew t
    simp only [countConfig, List.countP_append] at this ⊢
    simp [this]
  · rw [htr]
    have := resize_all_countResize env dNew t
    simp only [countResize, List.countP_append] at this ⊢
    simp [this]
  · intro cfg n hd hp
    rw [htr, hd]
    cases he : env t <;> simp [resize_all, resize_lxc_disk, hp, he]

/-- Counterexample to claim C5 as stated: the two descriptors differ only in
the size of `disks["rootfs"]`, yet update issues two resize calls — one per
slot of the new disks mapping — not exactly one per changed slot. -/
theorem update_disks_resize_cex :
    countResize (provider_update (fun _ => Resp.succ none) 0
        [("disks", Val.vdict [("rootfs", "local-lvm:8"), ("mp0", "local-lvm:5")])]
        [("disks", Val.vdict [("rootfs", "local-lvm:10"), ("mp0", "local-lvm:5")])]).trace ≠ 1
    ∧ countResize (provider_update (fun _ => Resp.succ none) 0
        [("disks", Val.vdict [("rootfs", "local-lvm:8"), ("mp0", "local-lvm:5")])]
        [("disks", Val.vdict [("rootfs", "local-lvm:10"), ("mp0", "local-lvm:5")])]).trace = 2 := by
  refine ⟨by decide, by decide⟩

/-- Witness for `update_disks_resize_spec` at a concrete disks-only change:
exactly one resize call for "rootfs" with the new size, then the read-back. -/
theorem update_disks_resize_spec_witness :
    (provider_update (fun _ => Resp.succ none) 0
        [("disks", Val.vdict [("rootfs", "local-lvm:8")])]
        [("disks", Val.vdict [("rootfs", "local-lvm:10")])]).trace =
      [.call (.putResize "rootfs" (toString 10 ++ "G")), .call .getStatus] :=
  (update_disks_resize_spec (fun _ => Resp.succ none) 0
    [("disks", Val.vdict [("rootfs", "local-lvm:8")])]
    [("disks", Val.vdict [("rootfs", "local-lvm:10")])]
    [("rootfs", "local-lvm:8")] [("rootfs", "local-lvm:10")]
    (by decide) (by decide) (by decide) (by decide)).2.2.2.2
    "local-lvm:10" 10 rfl (by decide)

lemma lookup_append (d2 : Props) (k : String) :
    ∀ d1 : Props, lookup_prop (d1 ++ d2) k =
      match lookup_prop d1 k with
      | some v => some v
      | none => lookup_prop d2 k := by
  intro d1
  induction d1 with
  | nil => simp [lookup_prop]
  | cons p rest ih =>
    obtain ⟨a, b⟩ := p
    by_cases hp : a = k
    · simp [lookup_prop, hp]
    · simp [lookup_prop, hp, ih]

lemma lookup_map_replace (k : String) (v : Val) :
    ∀ d : Props, (lookup_prop d k).isSome = true →
      lookup_prop (d.map (fun p => if p.1 = k then (k, v) else p)) k = some v := by
  intro d
  induction d with
  | nil => simp [lookup_prop]
  | cons p rest ih =>
    intro h
    obtain ⟨a, b⟩ := p
    by_cases hp : a = k
    · have hred : (if (a, b).1 = k then (k, v) else (a, b)) = (k, v) := by simp [hp]
      rw [List.map_cons, hred]
      simp [lookup_prop]
    · have hred : (if (a, b).1 = k then (k, v) else (a, b)) = (a, b) := by simp [hp]
      rw [List.map_cons, hred]
      simp only [lookup_prop, hp, if_neg, not_false_iff] at h ⊢
      exact ih h

lemma lookup_map_other (k : String) (v : Val) (key : String) (hk : key ≠ k) :
    ∀ d : Props,
      lookup_prop (d.map (fun p => if p.1 = k then (k, v) else p)) key = lookup_prop d key := by
  intro d
  induction d with
  | nil => simp [lookup_prop]
  | cons p rest ih =>
    obtain ⟨a, b⟩ := p
    by_cases hp : a = k
    · have hred : (if (a, b).1 = k then (k, v) else (a, b)) = (k, v) := by simp [hp]
      rw [List.map_cons, hred]
      have hkk : ¬ k = key := fun hh => hk hh.symm
      have hak : ¬ a = key := by rw [hp]; exact hkk
      simp [lookup_prop, hkk, hak, ih]
    · have hred : (if (a, b).1 = k then (k, v) else (a, b)) = (a, b) := by simp [hp]
      rw [List.map_cons, hred]
      by_cases hak : a = key
      · simp [lookup_prop, hak]
      · simp [lookup_prop, hak, ih]

lemma lookup_dict_set (d : Props) (k : String) (v : Val) (key : String) :
    lookup_prop (dict_set d k v) key = if key = k then some v else lookup_prop d key := by
  by_cases hcase : (lookup_prop d k).isSome = true
  · rw [dict_set, if_pos hcase]
    by_cases hk : key = k
    · rw [if_pos hk, hk]
      exact lookup_map_replace k v d hcase
    · rw [lookup_map_other k v key hk d, if_neg hk]
  · rw [dict_set, if_neg hcase, lookup_append]
    by_cases hk : key = k
    · have hnone : lookup_prop d key = none := by
        cases hl : lookup_prop d key with
        | none => rfl
        | some v' =>
          rw [hk] at hl
          rw [hl] at hcase
          simp at hcase
      have hkk : k = key := hk.symm
      rw [hnone, if_pos hk]
      simp [lookup_prop, hkk]
    · have hkk : ¬ k = key := fun hh => hk hh.symm
      cases hl : lookup_prop d key with
      | none => simp [lookup_prop, hkk, hk]
      | some v' => simp [hk]

lemma lookup_mem_keys : ∀ (d : Props) (k : String) (v : Val),
    lookup_prop d k = some v → k ∈ d.map Prod.fst := by
  intro d
  induction d with
  | nil => intro k v h; simp [lookup_prop] at h
  | cons p rest ih =>
    intro k v h
    obtain ⟨a, b⟩ := p
    by_cases hp : a = k
    · simp [hp]
    · simp only [lookup_prop, hp, if_neg, not_false_iff] at h
      simp [ih k v h]

lemma lookup_dict_update (k : String) :
    ∀ (d2 d1 : Props), (d2.map Prod.fst).Nodup →
      lookup_prop (dict_update d1 d2) k =
        match lookup_prop d2 k with
        | some v => some v
        | none => lookup_prop d1 k := by
  intro d2
  induction d2 with
  | nil => intro d1 _; simp [dict_update, lookup_prop]
  | cons p rest ih =>
    intro d1 hnd
    obtain ⟨k0, v0⟩ := p
    simp only [List.map_cons, List.nodup_cons] at hnd
    have hstep : dict_update d1 ((k0, v0) :: rest) = dict_update (dict_set d1 k0 v0) rest := rfl
    rw [hstep, ih (dict_set d1 k0 v0) hnd.2]
    cases hl : lookup_prop rest k with
    | some v =>
      have hk0 : ¬ k0 = k := by
        intro hh
        subst hh
        exact hnd.1 (lookup_mem_keys rest k0 v hl)
      simp [lookup_prop, hk0, hl]
    | none =>
      rw [lookup_dict_set]
      by_cases hk : k = k0
      · subst hk
        simp [lookup_prop, hl]
      · have hk0 : ¬ k0 = k := fun hh => hk hh.symm
        simp [lookup_prop, hk0, hk, hl]

lemma get_lxc_read_status (env : Nat → Resp) (u : Nat) :
    (get_lxc env u).res.getD "unknown" = read_status (env u) := by
  cases h : env u <;> simp [get_lxc, read_status, h]

/-- Claim C10: a successful `update()` returns `old_props` overlaid with
`new_props` — every key of `new_props` takes its new value, keys present
only in `old_props` are carried over — except `"status"`, which is replaced
by the freshly read remote status ("unknown" when the read fails); no other
key is added, removed or transformed. -/
theorem update_output_overlay (env : Nat → Resp) (t : Nat) (old new : Props) (out : Props)
    (hn : (new.map Prod.fst).Nodup)
    (h : (provider_update env t old new).res = .ok out) :
    ∃ st : String,
      out = dict_set (dict_update old new) "status" (.vstr st)
      ∧ lookup_prop out "status" = some (.vstr st)
      ∧ (∀ k, k ≠ "status" →
          lookup_prop out k =
            match lookup_prop new k with
            | some v => some v
            | none => lookup_prop old k)
      ∧ (∃ u, st = read_status (env u)) := by
  have hout : ∃ u, out = dict_set (dict_update old new) "status"
      (.vstr ((get_lxc env u).res.getD "unknown")) := by
    cases hd : update_diff_go old new update_fields with
    | error e => simp [provider_update, hd] at h
    | ok params =>
      by_cases hp : params.isEmpty
      · refine ⟨t, ?_⟩
        simp only [provider_update, hd, hp, if_pos] at h
        exact ((Except.ok.injEq _ _).mp h).symm
      · cases hu : (update_lxc env t params).res with
        | error e => simp [provider_update, hd, hp, hu] at h
        | ok v =>
          refine ⟨(update_lxc env t params).next, ?_⟩
          simp only [provider_update, hd, hp, if_neg, not_false_iff, hu] at h
          exact ((Except.ok.injEq _ _).mp h).symm
  rcases hout with ⟨u, hout⟩
  rw [get_lxc_read_status env u] at hout
  refine ⟨read_status (env u), hout, ?_, ?_, ⟨u, rfl⟩⟩
  · rw [hout, lookup_dict_set, if_pos rfl]
  · intro k hk
    rw [hout, lookup_dict_set, if_neg hk, lookup_dict_update k new old hn]

/-- Witness for `update_output_overlay` at concrete descriptors: the output
overlays the old props with the new and sets the freshly read status. -/
theorem update_output_overlay_witness :
    ∃ st : String,
      [("hostname", Val.vstr "b"), ("extra", Val.vint 7), ("status", Val.vstr "running")] =
        dict_set (dict_update
          [("hostname", Val.vstr "a"), ("extra", Val.vint 7)]
          [("hostname", Val.vstr "b")]) "status" (.vstr st)
      ∧ lookup_prop [("hostname", Val.vstr "b"), ("extra", Val.vint 7),
          ("status", Val.vstr "running")] "status" = some (.vstr st)
      ∧ (∀ k, k ≠ "status" →
          lookup_prop [("hostname", Val.vstr "b"), ("extra", Val.vint 7),
            ("status", Val.vstr "running")] k =
            match lookup_prop [("hostname", Val.vstr "b")] k with
            | some v => some v
            | none => lookup_prop [("hostname", Val.vstr "a"), ("extra", Val.vint 7)] k)
      ∧ (∃ u, st = read_status ((fun _ : Nat => Resp.succ (some "running")) u)) :=
  update_output_overlay (fun _ : Nat => Resp.succ (some "running")) 0
    [("hostname", Val.vstr "a"), ("extra", Val.vint 7)]
    [("hostname", Val.vstr "b")]
    [("hostname", Val.vstr "b"), ("extra", Val.vint 7), ("status", Val.vstr "running")]
    (by decide) rfl

/-- Python `disk_size.replace("G", "").replace("g", "")`
(proxmox_lxc.py:54, proxmox_vm_qemu.py:48). -/
def strip_g (s : String) : String := ⟨s.data.filter (fun c => c != 'G' && c != 'g')⟩

/-- The disks field of `LXCContainerArgs.__init__` (proxmox_lxc.py:49-58):
explicit `disks` wins; legacy `disk_size` becomes a rootfs spec; otherwise
the default 8 GB rootfs. -/
def lxc_args_disks (disks : Option (List (String × String))) (disk_size : Option String) :
    List (String × String) :=
  match disks with
  | some d => d
  | none =>
    match disk_size with
    | some sz => [("rootfs", "local-lvm:" ++ strip_g sz)]
    | none => [("rootfs", "local-lvm:8")]

/-- The networks field of `LXCContainerArgs.__init__` (proxmox_lxc.py:61-68). -/
def lxc_args_networks (networks : Option (List (String × String))) (network : Option String) :
    List (String × String) :=
  match networks with
  | some d => d
  | none =>
    match network with
    | some n => [("net0", n)]
    | none => [("net0", "name=eth0,bridge=vmbr0,ip=dhcp")]

/-- The disks field of `VirtualMachineArgs.__init__` (proxmox_vm_qemu.py:43-52). -/
def vm_args_disks (disks : Option (List (String × String))) (disk_size : Option String) :
    List (String × String) :=
  match disks with
  | some d => d
  | none =>
    match disk_size with
    | some sz => [("scsi0", "local-lvm:" ++ strip_g sz)]
    | none => [("scsi0", "local-lvm:20")]

/-- The networks field of `VirtualMachineArgs.__init__` (proxmox_vm_qemu.py:55-62). -/
def vm_args_networks (networks : Option (List (String × String))) (network : Option String) :
    List (String × String) :=
  match networks with
  | some d => d
  | none =>
    match network with
    | some n => [("net0", n)]
    | none => [("net0", "virtio,bridge=vmbr0")]

/-- Python `x or d` on an optional integer (used for cores/memory/swap in
the Args constructors: `None` and `0` both fall back to the default). -/
def py_or_int (x : Option Int) (d : Int) : Int :=
  match x with
  | none => d
  | some n => if n = 0 then d else n

/-- The base parameter set built by `ProxmoxAPI.create_lxc`
(proxmox_api.py:194-201) from its keyword arguments: `params.get("cores", 1)`,
`params.get("memory", 512)`, `params.get("swap", 512)`, the hostname default
`f"lxc-{vm_id}"`, and `int(params.get("unprivileged", True))`. -/
def create_lxc_base_params (vmid : Int) (cores memory swap : Option Int)
    (hostname : Option String) (unprivileged : Option Bool) : Props :=
  [("vmid", .vint vmid),
    ("cores", .vint (cores.getD 1)),
    ("memory", .vint (memory.getD 512)),
    ("swap", .vint (swap.getD 512)),
    ("hostname", .vstr (hostname.getD ("lxc-" ++ toString vmid))),
    ("unprivileged", .vint (if unprivileged.getD true then 1 else 0))]

/-- `LXCContainerProvider.create` (proxmox_lxc.py:84-156) after the create
POST: if `start_on_create` (default true), a start POST whose failure is
logged, with a 3-second sleep only after a successful start; then one
`get_lxc` read whose failure yields status "unknown"; the returned value is
the observed status.  Only a create-POST failure raises. -/
def provider_create (env : Nat → Resp) (t : Nat) (startOnCreate : Bool) :
    Run (Except String String) :=
  match env t with
  | .fail m => ⟨.error m, t + 1, [.call .postCreate]⟩
  | .succ _ =>
    if startOnCreate then
      match env (t + 1) with
      | .succ _ =>
        let g := get_lxc env (t + 2)
        ⟨.ok (g.res.getD "unknown"), g.next,
          [.call .postCreate, .call .postStart, .sleep 3] ++ g.trace⟩
      | .fail _ =>
        let g := get_lxc env (t + 2)
        ⟨.ok (g.res.getD "unknown"), g.next, [.call .postCreate, .call .postStart] ++ g.trace⟩
    else
      let g := get_lxc env (t + 1)
      ⟨.ok (g.res.getD "unknown"), g.next, .call .postCreate :: g.trace⟩

/-- Claim C8: with no disks/networks supplied the container defaults are
`rootfs: local-lvm:8` and `net0: name=eth0,bridge=vmbr0,ip=dhcp`, the VM
defaults are `scsi0: local-lvm:20` and a bridged `net0`; and omitted
optional fields default to cores 1, memory 512, swap 512 and
unprivileged true (wire value 1) in the create-call parameter set. -/
theorem create_defaults_spec :
    lxc_args_disks none none = [("rootfs", "local-lvm:8")]
    ∧ lxc_args_networks none none = [("net0", "name=eth0,bridge=vmbr0,ip=dhcp")]
    ∧ vm_args_disks none none = [("scsi0", "local-lvm:20")]
    ∧ vm_args_networks none none = [("net0", "virtio,bridge=vmbr0")]
    ∧ (∀ vmid : Int,
        lookup_prop (create_lxc_base_params vmid none none none none none) "cores"
            = some (.vint 1)
        ∧ lookup_prop (create_lxc_base_params vmid none none none none none) "memory"
            = some (.vint 512)
        ∧ lookup_prop (create_lxc_base_params vmid none none none none none) "swap"
            = some (.vint 512)
        ∧ lookup_prop (create_lxc_base_params vmid none none none none none) "unprivileged"
            = some (.vint 1)) := by
  refine ⟨rfl, rfl, rfl, rfl, ?_⟩
  intro vmid
  refine ⟨?_, ?_, ?_, ?_⟩ <;> simp [create_lxc_base_params, lookup_prop]

/-- Claim C9: after a successful create call, the start call is issued iff
`startOnCreate` is true and its failure does not fail `create()`; a failing
status read-back yields status "unknown" instead of failing; `create()`
raises exactly when the create call itself fails. -/
theorem create_start_readback_spec (env : Nat → Resp) (t : Nat) (b : Bool) :
    (∀ m, env t = .fail m → provider_create env t b = ⟨.error m, t + 1, [.call .postCreate]⟩)
    ∧ (∀ st, env t = .succ st →
        (provider_create env t b).res =
          .ok (read_status (env (if b then t + 2 else t + 1)))
        ∧ countStart (provider_create env t b).trace = (if b then 1 else 0))
    ∧ (∀ st m, env t = .succ st → env (if b then t + 2 else t + 1) = .fail m →
        (provider_create env t b).res = .ok "unknown")
    ∧ (∀ m, (provider_create env t b).res = .error m → env t = .fail m) := by
  refine ⟨?_, ?_, ?_, ?_⟩
  · intro m h
    rw [provider_create, h]
  · intro st h
    cases b with
    | true =>
      cases h2 : env (t + 1) with
      | succ st2 =>
        cases h3 : env (t + 2) <;>
          simp [provider_create, h, h2, get_lxc, h3, read_status, countStart]
      | fail m =>
        cases h3 : env (t + 2) <;>
          simp [provider_create, h, h2, get_lxc, h3, read_status, countStart]
    | false =>
      cases h3 : env (t + 1) <;>
        simp [provider_create, h, get_lxc, h3, read_status, countStart]
  · intro st m h h2
    cases b with
    | true =>
      cases hmid : env (t + 1) with
      | succ st2 => simp only [if_pos] at h2; simp [provider_create, h, hmid, get_lxc, h2]
      | fail m2 => simp only [if_pos] at h2; simp [provider_create, h, hmid, get_lxc, h2]
    | false =>
      simp only [Bool.false_eq_true, if_false] at h2
      simp [provider_create, h, get_lxc, h2]
  · intro m h
    cases he : env t with
    | fail m2 =>
      rw [provider_create, he] at h
      simp only [Except.error.injEq] at h
      rw [h]
    | succ st =>
      cases b with
      | true =>
        cases h2 : env (t + 1) with
        | succ st2 =>
          cases h3 : env (t + 2) <;> simp [provider_create, he, h2, get_lxc, h3] at h
        | fail m2 =>
          cases h3 : env (t + 2) <;> simp [provider_create, he, h2, get_lxc, h3] at h
      | false =>
        cases h3 : env (t + 1) <;> simp [provider_create, he, get_lxc, h3] at h

/-- Witness for `create_start_readback_spec`: create succeeds, start fails,
the read-back fails — `create()` still returns, with status "unknown". -/
theorem create_start_readback_spec_witness :
    (provider_create (fun u => if u = 0 then Resp.succ none else Resp.fail "boom") 0 true).res
      = .ok "unknown" :=
  (create_start_readback_spec
      (fun u => if u = 0 then Resp.succ none else Resp.fail "boom") 0 true).2.2.1
    none "boom" rfl rfl

end Proxmox
